import Mathlib

/-!
Shallow embedding of the PDF text-extraction subsystem of `weather.py`
(the MCP "weather-server" repository).  Pure Python functions become Lean
functions; the process state (the in-memory `pdf_cache` dict and the
filesystem holding PDF files and on-disk `.txt` cache files) is passed
explicitly.  Python exceptions are modelled with `Except String`, the
error payload being the Python exception's message string.

Modelling conventions, fixed once here:
* Paths are plain strings, already absolute and normalized, with `/` as
  the directory separator; `os.path.abspath` is the identity on such
  paths.
* The MD5 digest used for cache-file naming is an opaque hashing
  function supplied in the configuration (`Config.md5hex`); the source
  calls `hashlib.md5(...).hexdigest()`, whose output is a 32-character
  hex string.
* A rasterized page image (`pdf2image` output) is represented by the
  1-indexed number of the page it depicts; per-image OCR outcomes are a
  field of the document model.
* Python truthiness of the `page_numbers` argument (`if page_numbers:`)
  is `pagesTruthy`: `None` and the empty list are falsy.
-/

namespace PdfServer

instance {ε α : Type} [DecidableEq ε] [DecidableEq α] : DecidableEq (Except ε α) := fun a b =>
  match a, b with
  | Except.ok x, Except.ok y =>
      if h : x = y then isTrue (by rw [h]) else isFalse (by intro hh; cases hh; exact h rfl)
  | Except.error x, Except.error y =>
      if h : x = y then isTrue (by rw [h]) else isFalse (by intro hh; cases hh; exact h rfl)
  | Except.ok _, Except.error _ => isFalse (by intro hh; cases hh)
  | Except.error _, Except.ok _ => isFalse (by intro hh; cases hh)

/-- Characters after the last occurrence of `c` (the whole list when `c`
is absent), used for `os.path.basename` with `c = '/'`. -/
def afterLast (c : Char) : List Char → List Char
  | [] => []
  | x :: xs => if c ∈ xs then afterLast c xs else if x = c then xs else x :: xs

/-- Model of `os.path.basename`: the part of the path after the last `/`. -/
def basename (p : String) : String := String.mk (afterLast '/' p.data)

/-- Model of `os.path.dirname`: the part of the path before the last `/` (empty
when the path has no `/`). -/
def dirname (p : String) : String :=
  let b := afterLast '/' p.data
  if b.length = p.data.length then "" else String.mk (p.data.take (p.data.length - b.length - 1))

/-- Model of `os.path.splitext(...)[0]` applied to a basename: strip the extension
at the last dot, except when the only dot is the leading one. -/
def stemOfBase (b : String) : String :=
  let afterDot := afterLast '.' b.data
  if afterDot.length = b.data.length then b
  else if afterDot.length + 1 = b.data.length ∧ b.data.headD ' ' = '.' then b
  else String.mk (b.data.take (b.data.length - afterDot.length - 1))

/-- Model of `os.path.join` for an absolute directory and a plain filename. -/
def pathJoin (d name : String) : String := if d = "" then name else d ++ "/" ++ name

/-- A PDF document as the Python libraries see it.  `pages` is the direct
text layer per page, each page's `extract_text()` call modelled as
fallible; `openError` is set when `PyPDF2.PdfReader` raises on this file;
`convertError` is set when `pdf2image.convert_from_path` raises;
`ocrPages` is the per-page outcome of `pytesseract.image_to_string`. -/
structure PdfDoc where
  pages : List (Except String String)
  openError : Option String
  convertError : Option String
  ocrPages : List (Except String String)
deriving DecidableEq

/-- OCR outcome for the image depicting 1-indexed page `n`. -/
def PdfDoc.ocrOf (doc : PdfDoc) (n : Nat) : Except String String :=
  doc.ocrPages.getD (n - 1) (Except.ok "")

/-- One filesystem entry: raw bytes (what `open(p, 'rb').read()` yields,
hashed by the cache), the content read as text (for `.txt` cache files),
and the result of attempting to parse the entry as a PDF. -/
structure File where
  bytes : List Nat
  text : String
  doc : PdfDoc
deriving DecidableEq

/-- A plain text file, as written by `save_cached_text`; it is not a
valid PDF. -/
def textFile (t : String) : File :=
  ⟨[], t, ⟨[], some "EOF marker not found", some "Unable to get page count", []⟩⟩

/-- The filesystem: a finite map from paths to entries. -/
structure FS where
  files : List (String × File)
deriving DecidableEq

def FS.find (fs : FS) (p : String) : Option File :=
  (fs.files.find? (fun kv => kv.1 = p)).map (fun kv => kv.2)

/-- Model of `os.path.exists`. -/
def FS.pathExists (fs : FS) (p : String) : Bool := (fs.find p).isSome

/-- Model of `open(p, 'w').write(t)`: create or truncate-and-rewrite `p`. -/
def FS.writeText (fs : FS) (p : String) (t : String) : FS :=
  if fs.files.any (fun kv => kv.1 = p) then
    ⟨fs.files.map (fun kv => if kv.1 = p then (p, textFile t) else kv)⟩
  else ⟨fs.files ++ [(p, textFile t)]⟩

/-- Static configuration: the `ALLOWED_PDF_DIRECTORIES` constant and the
MD5 hex digest function. -/
structure Config where
  allowed : List String
  md5hex : List Nat → String

/-- Process state: the filesystem and the global in-memory `pdf_cache`
dict (association list keyed by the Python cache-key string). -/
structure World where
  fs : FS
  pdf_cache : List (String × String)
deriving DecidableEq

/-- Python dict lookup `d[k]` / `k in d`. -/
def lookupCache (c : List (String × String)) (k : String) : Option String :=
  (c.find? (fun kv => kv.1 = k)).map (fun kv => kv.2)

/-- Python dict assignment `d[k] = v`: replace when the key is present,
otherwise append. -/
def cacheInsert (c : List (String × String)) (k v : String) : List (String × String) :=
  if c.any (fun kv => kv.1 = k) then c.map (fun kv => if kv.1 = k then (k, v) else kv)
  else c ++ [(k, v)]

/-- Python truthiness of the `page_numbers` argument. -/
def pagesTruthy : Option (List Nat) → Bool
  | some l => !l.isEmpty
  | none => false

/-- Python `str(...)` of the `page_numbers` value, as it appears inside
the f-string cache key: `None`, or `[1, 2]` with comma-space. -/
def pyReprPages : Option (List Nat) → String
  | none => "None"
  | some l => "[" ++ String.intercalate ", " (l.map toString) ++ "]"

/-- The in-memory cache key `f"{file_path}:{page_numbers}"`. -/
def cache_key (p : String) (pn : Option (List Nat)) : String :=
  p ++ ":" ++ pyReprPages pn

/-- Model of `get_pdf_hash`: read the file's bytes and hash them; `open` raises
when the path is absent. -/
def get_pdf_hash (cfg : Config) (fs : FS) (p : String) : Except String String :=
  match fs.find p with
  | some f => Except.ok (cfg.md5hex f.bytes)
  | none => Except.error ("No such file or directory: " ++ p)

/-- Model of `get_cache_file_path`: sibling file named
`<stem>_ocr_<first 8 hash chars>.txt`. -/
def get_cache_file_path (cfg : Config) (fs : FS) (p : String) : Except String String :=
  match get_pdf_hash cfg fs p with
  | Except.error e => Except.error e
  | Except.ok h =>
      Except.ok (pathJoin (dirname p) (stemOfBase (basename p) ++ "_ocr_" ++ h.take 8 ++ ".txt"))

/-- Model of `load_cached_text`: the cache file's contents when it exists, `None`
otherwise. -/
def load_cached_text (cfg : Config) (fs : FS) (p : String) : Except String (Option String) :=
  match get_cache_file_path cfg fs p with
  | Except.error e => Except.error e
  | Except.ok cf =>
      match fs.find cf with
      | some file => Except.ok (some file.text)
      | none => Except.ok none

/-- Model of `save_cached_text`: write the text to the cache file (write errors
are swallowed by the source; the model's write always succeeds). -/
def save_cached_text (cfg : Config) (fs : FS) (p : String) (t : String) : FS :=
  match get_cache_file_path cfg fs p with
  | Except.error _ => fs
  | Except.ok cf => fs.writeText cf t

/-- Python `str.startswith`: a character-wise prefix test. -/
def startswith (d p : String) : Bool := d.data.isPrefixOf p.data

/-- Model of `is_path_allowed`: plain string-prefix test of the (already
absolute, normalized) path against each allowed directory. -/
def is_path_allowed (allowed : List String) (p : String) : Bool :=
  allowed.any (fun d => startswith d p)

/-- A path lies inside a directory in the filesystem sense: it is the
directory itself or a proper descendant under the separator. -/
def isInsideDir (d p : String) : Bool := p = d || startswith (d ++ "/") p

/-- A path lies inside some allow-listed root. -/
def isInsideAny (roots : List String) (p : String) : Bool :=
  roots.any (fun d => isInsideDir d p)

/-- Model of `pdf2image.convert_from_path(path, first_page, last_page)`: one image
per page of the requested range, clamped to the document's page count;
raises when the toolchain fails on this document. -/
def convert_from_path (doc : PdfDoc) (first last : Nat) : Except String (List Nat) :=
  match doc.convertError with
  | some e => Except.error e
  | none => Except.ok (List.range' first (min last doc.pages.length + 1 - first))

/-- Python `min(...)` / `max(...)` over a non-empty list. -/
def listMin : List Nat → Nat
  | [] => 0
  | x :: xs => xs.foldl Nat.min x

def listMax : List Nat → Nat
  | [] => 0
  | x :: xs => xs.foldl Nat.max x

/-- The image-filtering loop of `extract_text_with_ocr`:
`for i, page_num in enumerate(range(first_page, last_page + 1)):
   if page_num in page_numbers: requested_images.append(images[i])`.
`images[i]` raises `IndexError` when the conversion produced fewer
images than the enumerated range (a clamped `last_page`). -/
def filterReq (images : List Nat) (pns : List Nat) :
    List (Nat × Nat) → Except String (List Nat)
  | [] => Except.ok []
  | (i, pageNum) :: rest =>
    if pns.contains pageNum then
      match images.get? i with
      | some img =>
          match filterReq images pns rest with
          | Except.error e => Except.error e
          | Except.ok tail => Except.ok (img :: tail)
      | none => Except.error "list index out of range"
    else filterReq images pns rest

/-- A successful page block `--- Page N (OCR) ---`. -/
def pageBlockOk (ap : Nat) (t : String) : String :=
  s!"--- Page {ap} (OCR) ---\n{t}\n"

/-- A per-page failure block `--- Page N (OCR Error) ---`. -/
def pageBlockErr (ap : Nat) (e : String) : String :=
  s!"--- Page {ap} (OCR Error) ---\nError extracting text: {e}\n"

/-- The OCR loop of `extract_text_with_ocr` over `enumerate(images)`.
The Python local `actual_page` is modelled as `Option Nat`: it is
assigned only inside the `try`, after the OCR call, so when OCR raises
on a page before `actual_page` was ever assigned, the `except` handler's
reference to it raises `NameError`, which escapes the loop. -/
def ocrLoop (doc : PdfDoc) (pns? : Option (List Nat)) :
    List (Nat × Nat) → Option Nat → Except String (List String)
  | [], _ => Except.ok []
  | (i, img) :: rest, actualPage =>
    match doc.ocrOf img with
    | Except.ok t =>
        let ap : Nat :=
          match pns? with
          | some pns => if i < pns.length then pns.getD i 0 else pns.headD 0 + i
          | none => i + 1
        match ocrLoop doc pns? rest (some ap) with
        | Except.error e => Except.error e
        | Except.ok tail => Except.ok (pageBlockOk ap t :: tail)
    | Except.error e =>
        match actualPage with
        | some ap =>
            match ocrLoop doc pns? rest (some ap) with
            | Except.error e2 => Except.error e2
            | Except.ok tail => Except.ok (pageBlockErr ap e :: tail)
        | none => Except.error "name \x27actual_page\x27 is not defined"

/-- Model of `extract_text_with_ocr`: rasterize the requested range, filter to
the requested pages, OCR each image, and join the blocks; any exception
inside is re-raised as `Error performing OCR on PDF: ...`. -/
def extract_text_with_ocr (doc : PdfDoc) (pageNumbers : Option (List Nat)) :
    Except String String :=
  let pns? : Option (List Nat) :=
    match pageNumbers with
    | some l => if l.isEmpty then none else some l
    | none => none
  let body : Except String String :=
    match
      (match pns? with
       | some pns =>
          let first := listMin pns
          let last := listMax pns
          match convert_from_path doc first last with
          | Except.error e => Except.error e
          | Except.ok images =>
              filterReq images pns (List.enum (List.range' first (last + 1 - first)))
       | none => convert_from_path doc 1 doc.pages.length) with
    | Except.error e => Except.error e
    | Except.ok images =>
        match ocrLoop doc pns? (List.enum images) none with
        | Except.error e => Except.error e
        | Except.ok blocks => Except.ok (String.intercalate "\n" blocks)
  match body with
  | Except.ok t => Except.ok t
  | Except.error e => Except.error s!"Error performing OCR on PDF: {e}"

/-- Python `str.strip()`: drop leading and trailing whitespace. -/
def pyStrip (s : String) : String :=
  String.mk (((s.data.dropWhile Char.isWhitespace).reverse.dropWhile Char.isWhitespace).reverse)

/-- The sampling loop of `has_extractable_text`: strip each sampled
page's text and sum the lengths, propagating the first extraction
error. -/
def sampleTotal : List (Except String String) → Except String Nat
  | [] => Except.ok 0
  | x :: rest =>
    match x with
    | Except.error e => Except.error e
    | Except.ok t =>
        match sampleTotal rest with
        | Except.error e => Except.error e
        | Except.ok r => Except.ok ((pyStrip t).length + r)

/-- The `try` body of `has_extractable_text`; `avg_text_per_page > 50`
on Python floats is `total / pages > 50`, i.e. `50 * pages < total` for
integer totals; sampling an empty document divides by zero. -/
def hasTextBody (doc : PdfDoc) (samplePages : Nat) : Except String Bool :=
  match doc.openError with
  | some e => Except.error e
  | none =>
    let pagesToCheck := min samplePages doc.pages.length
    match sampleTotal (doc.pages.take pagesToCheck) with
    | Except.error e => Except.error e
    | Except.ok total =>
        if pagesToCheck = 0 then Except.error "division by zero"
        else Except.ok (decide (50 * pagesToCheck < total))

/-- Model of `has_extractable_text`: the sampling body with its catch-all
`except Exception: return False`. -/
def has_extractable_text (doc : PdfDoc) (samplePages : Nat) : Bool :=
  match hasTextBody doc samplePages with
  | Except.ok b => b
  | Except.error _ => false

/-- The direct-extraction branch of `extract_pdf_text` (lines 251-265):
open the reader, resolve the page set (explicit 1-indexed list filtered
to in-range values, or all pages), and join the labelled page blocks. -/
def extractDirect (doc : PdfDoc) (pageNumbers : Option (List Nat)) : Except String String :=
  match doc.openError with
  | some e => Except.error e
  | none =>
    let n := doc.pages.length
    let pagesToRead : List Nat :=
      if pagesTruthy pageNumbers then
        (pageNumbers.getD []).filterMap
          (fun p => if 1 ≤ p ∧ p - 1 < n then some (p - 1) else none)
      else List.range n
    match pagesToRead.mapM
        (fun pn =>
          match doc.pages.getD pn (Except.error "list index out of range") with
          | Except.error e => Except.error e
          | Except.ok t =>
              let m := pn + 1
              Except.ok s!"--- Page {m} ---\n{t}\n") with
    | Except.error e => Except.error e
    | Except.ok blocks => Except.ok (String.intercalate "\n" blocks)

/-- The `try` block of `extract_pdf_text`: choose direct extraction when
OCR is not forced and the scan detector reports extractable text,
otherwise OCR (persisting whole-document OCR results to the on-disk
cache).  Returns the extracted text together with the possibly updated
filesystem. -/
def tryExtract (cfg : Config) (w : World) (path : String)
    (pageNumbers : Option (List Nat)) (forceOcr : Bool) :
    Except String (String × FS) :=
  match w.fs.find path with
  | none => Except.error ("No such file or directory: " ++ path)
  | some file =>
    if ¬ forceOcr ∧ has_extractable_text file.doc 3 then
      match extractDirect file.doc pageNumbers with
      | Except.error e => Except.error e
      | Except.ok t => Except.ok (t, w.fs)
    else
      match extract_text_with_ocr file.doc pageNumbers with
      | Except.error e => Except.error e
      | Except.ok t =>
          Except.ok (t, if pagesTruthy pageNumbers then w.fs
                        else save_cached_text cfg w.fs path t)

/-- Model of `extract_pdf_text` after the persistent-cache check: in-memory cache
lookup, then the `try` block, with the OCR fallback and combined error
of the `except` clause, and the bounded in-memory cache admission. -/
def extract_after_persist (cfg : Config) (w : World) (path : String)
    (pageNumbers : Option (List Nat)) (forceOcr : Bool) :
    Except String String × World :=
  match (if ¬ forceOcr then lookupCache w.pdf_cache (cache_key path pageNumbers) else none) with
  | some t => (Except.ok t, w)
  | none =>
    match tryExtract cfg w path pageNumbers forceOcr with
    | Except.ok (t, fs2) =>
        (Except.ok t,
         ⟨fs2, if w.pdf_cache.length < 10 then
                 cacheInsert w.pdf_cache (cache_key path pageNumbers) t
               else w.pdf_cache⟩)
    | Except.error e =>
        if ¬ forceOcr then
          match
            (match w.fs.find path with
             | some file => extract_text_with_ocr file.doc pageNumbers
             | none => Except.error ("No such file or directory: " ++ path)) with
          | Except.ok t =>
              (Except.ok t,
               ⟨if pagesTruthy pageNumbers then w.fs else save_cached_text cfg w.fs path t,
                w.pdf_cache⟩)
          | Except.error o =>
              (Except.error
                 s!"Both regular extraction and OCR failed. Regular error: {e}, OCR error: {o}",
               w)
        else (Except.error s!"Error reading PDF: {e}", w)

/-- Model of `extract_pdf_text`: existence check, path-confinement check,
persistent-cache check (whole-document, no forced OCR; an empty cached
string is falsy and treated as a miss), then `extract_after_persist`. -/
def extract_pdf_text (cfg : Config) (w : World) (path : String)
    (pageNumbers : Option (List Nat)) (forceOcr : Bool) :
    Except String String × World :=
  if ¬ w.fs.pathExists path then (Except.error s!"PDF file not found: {path}", w)
  else if ¬ is_path_allowed cfg.allowed path then
    (Except.error s!"Access denied to file: {path}", w)
  else if pagesTruthy pageNumbers || forceOcr then
    extract_after_persist cfg w path pageNumbers forceOcr
  else
    match load_cached_text cfg w.fs path with
    | Except.error e => (Except.error e, w)
    | Except.ok (some t) =>
        if t = "" then extract_after_persist cfg w path pageNumbers forceOcr
        else (Except.ok ("[Using cached OCR text]\n\n" ++ t), w)
    | Except.ok none => extract_after_persist cfg w path pageNumbers forceOcr

/-- The truncation notice appended by the `read_pdf` tool handler. -/
def truncNotice : String :=
  "\n\n[Content truncated - file is very long. Use page_numbers parameter to read specific pages]"

/-- The presentation truncation of the `read_pdf` handler:
`if len(pdf_text) > 15000: pdf_text = pdf_text[:15000] + notice`. -/
def truncate_pdf_text (t : String) : String :=
  if t.length > 15000 then t.take 15000 ++ truncNotice else t

/-- The success payload wrapper of the `read_pdf` handler. -/
def readPdfMessage (path t2 : String) : String :=
  s!"Content from PDF file: {path}\n\n{t2}"

/-- The failure payload wrapper of the `read_pdf` handler. -/
def readPdfErrorMessage (path e : String) : String :=
  s!"Error reading PDF file \x27{path}\x27: {e}"

/-- The `read_pdf` branch of `handle_call_tool`: extract, truncate the
presentation copy at 15000 characters, and wrap in the response header;
failures become a text payload. -/
def handle_read_pdf (cfg : Config) (w : World) (path : String)
    (pageNumbers : Option (List Nat)) (forceOcr : Bool) : String × World :=
  match extract_pdf_text cfg w path pageNumbers forceOcr with
  | (Except.ok t, w2) => (readPdfMessage path (truncate_pdf_text t), w2)
  | (Except.error e, w2) => (readPdfErrorMessage path e, w2)

/-- Python substring membership `needle in hay`. -/
def strIn (needle hay : String) : Bool :=
  hay.data.tails.any (fun suf => needle.data.isPrefixOf suf)

/-- The match-collection loop of `search_pdf_content`: for every line
containing the term, record `Line N:` with a ±1-line context window. -/
def buildMatches (lines : List String) (term : String) : List String :=
  (List.enum lines).filterMap
    (fun p =>
      if strIn term p.2 then
        let contextStart := p.1 - 1
        let contextEnd := min lines.length (p.1 + 2)
        let context := String.intercalate " " ((lines.drop contextStart).take (contextEnd - contextStart))
        let n := p.1 + 1
        some s!"Line {n}: {context}"
      else none)

/-- The success message of `search_pdf_content` when matches exist. -/
def foundMessage (path term : String) (ms : List String) : String :=
  let nm := ms.length
  s!"Found {nm} matches for \x27{term}\x27 in {path}:\n\n" ++
  String.intercalate "\n\n" (ms.take 10) ++
  (if nm > 10 then s!"\n\n[Showing first 10 of {nm} matches]" else "")

/-- The failure payload wrapper of the `search_pdf_content` handler. -/
def searchErrorMessage (path e : String) : String :=
  s!"Error searching PDF file \x27{path}\x27: {e}"

/-- The no-matches payload of the `search_pdf_content` handler. -/
def noMatchesMessage (path term : String) : String :=
  s!"No matches found for \x27{term}\x27 in {path}"

/-- The `search_pdf_content` branch of `handle_call_tool`: extract the
whole document (no page subset, no forced OCR), optionally lower-case
text and term, and report the matching lines with context. -/
def search_pdf_content (cfg : Config) (w : World) (path term : String)
    (caseSensitive : Bool) : String × World :=
  match extract_pdf_text cfg w path none false with
  | (Except.error e, w2) => (searchErrorMessage path e, w2)
  | (Except.ok t, w2) =>
      let searchText := if caseSensitive then t else t.toLower
      let termToFind := if caseSensitive then term else term.toLower
      let lines := searchText.splitOn "\n"
      let ms := buildMatches lines termToFind
      if ms.isEmpty then (noMatchesMessage path term, w2)
      else (foundMessage path term ms, w2)

/-- Python `str.lower()` (ASCII case folding, as used by the `.pdf`
suffix test of `find_pdf_files`). -/
def pyLower (s : String) : String := String.mk (s.data.map Char.toLower)

/-- Python `str.endswith`: a character-wise suffix test. -/
def endswith (suf s : String) : Bool := suf.data.isSuffixOf s.data

/-- A directory exists in the model when some stored file lies beneath
it.  An empty directory contributes nothing to the walk, so conflating
it with a nonexistent one is observationally harmless in
`find_pdf_files` (both are skipped without effect). -/
def dirExists (fs : FS) (d : String) : Bool :=
  fs.files.any (fun kv => startswith (d ++ "/") kv.1)

/-- Model of `os.walk` plus the collection loop of `find_pdf_files`:
every stored file under the directory whose lowercased base name ends
in `.pdf` (the walk emits base names; `os.path.join(root, file)`
restores the full path). -/
def walkPdfs (fs : FS) (d : String) : List String :=
  (fs.files.map Prod.fst).filter
    (fun p => startswith (d ++ "/") p && endswith ".pdf" (pyLower (basename p)))

/-- Lexicographic order on character lists (Python string comparison
for ASCII paths). -/
def charListLe : List Char → List Char → Bool
  | [], _ => true
  | _ :: _, [] => false
  | x :: xs, y :: ys => if x = y then charListLe xs ys else decide (x < y)

def insertSorted (x : String) : List String → List String
  | [] => [x]
  | y :: ys => if charListLe x.data y.data then x :: y :: ys else y :: insertSorted x ys

/-- Python `sorted(...)` on a list of paths. -/
def pySorted : List String → List String
  | [] => []
  | x :: xs => insertSorted x (pySorted xs)

/-- Model of `find_pdf_files`: search the given directory (Python
truthiness: `None` and the empty string mean all allowed roots), skip —
silently, with no error of any kind — directories that do not exist or
are not allowed, collect `.pdf` files from the rest, and return the
paths sorted.  Walk permission errors, which the source also skips
silently via `continue`, cannot arise in the model. -/
def find_pdf_files (cfg : Config) (fs : FS) (directory : Option String) : List String :=
  pySorted
    ((match directory with
      | some d => if d = "" then cfg.allowed else [d]
      | none => cfg.allowed).foldl
      (fun acc dirPath =>
        if ¬ dirExists fs dirPath then acc
        else if ¬ is_path_allowed cfg.allowed dirPath then acc
        else acc ++ walkPdfs fs dirPath) [])

/-! Concrete instances used by the witnesses and counterexamples below.
The hash function stands in for MD5: any fixed function from bytes to a
32-character hex string exercises the cache-naming scheme. -/

/-- A sample configuration: one allowed root, a constant stand-in digest. -/
def cfgEx : Config := ⟨["/allowed/pdfs"], fun _ => "0123456789abcdef0123456789abcdef"⟩

/-- Sixty characters of page text: enough to pass the 50-chars/page
scan-detection threshold. -/
def chars60 : String := "abcdefghijabcdefghijabcdefghijabcdefghijabcdefghijabcdefghij"

/-- A text-bearing one-page document that also OCRs successfully. -/
def exDirectDoc : PdfDoc := ⟨[Except.ok chars60], none, none, [Except.ok "OCRTEXT"]⟩

def pEx : String := "/allowed/pdfs/report.pdf"

/-- The direct-extraction output for `exDirectDoc`. -/
def exDirectText : String := s!"--- Page 1 ---\n{chars60}\n"

/-- A world with just `exDirectDoc` on disk and empty caches. -/
def wDir : World := ⟨⟨[(pEx, ⟨[1, 2, 3], "", exDirectDoc⟩)]⟩, []⟩

/-- The world after a first whole-document extraction over `wDir`. -/
def wDir1 : World := ⟨wDir.fs, [(cache_key pEx none, exDirectText)]⟩

/-- A world whose in-memory cache already holds the whole-document entry. -/
def wDirHit : World := ⟨wDir.fs, [(cache_key pEx none, exDirectText)]⟩

/-- A two-page document whose first page fails OCR. -/
def exDocFirstFail : PdfDoc :=
  ⟨[Except.ok "x", Except.ok "y"], none, none, [Except.error "boom", Except.ok "hello"]⟩

/-- A two-page document whose second page fails OCR. -/
def exDocSecondFail : PdfDoc :=
  ⟨[Except.ok "x", Except.ok "y"], none, none, [Except.ok "hello", Except.error "boom"]⟩

/-- A three-page scanned document with distinct OCR text per page. -/
def exDocThree : PdfDoc :=
  ⟨[Except.ok "", Except.ok "", Except.ok ""], none, none,
   [Except.ok "ONE", Except.ok "TWO", Except.ok "THREE"]⟩

/-- The per-page OCR text of `exDocThree`. -/
def fThree : Nat → String := fun p => if p = 1 then "ONE" else if p = 2 then "TWO" else "THREE"

def pScan : String := "/allowed/pdfs/scan.pdf"

/-- A scanned one-page document: 2 characters of direct text, OCR works. -/
def exScanDoc : PdfDoc := ⟨[Except.ok "hi"], none, none, [Except.ok "OCRRESULT"]⟩

/-- A world with just `exScanDoc` on disk and empty caches. -/
def wScan : World := ⟨⟨[(pScan, ⟨[4, 5, 6], "", exScanDoc⟩)]⟩, []⟩

/-- The OCR output for `exScanDoc`. -/
def exOcrText : String := pageBlockOk 1 "OCRRESULT"

/-- A document whose three sampled pages carry plenty of text but whose
fourth page's `extract_text()` raises, and whose rasterization fails. -/
def exDocC7 : PdfDoc :=
  ⟨[Except.ok chars60, Except.ok chars60, Except.ok chars60, Except.error "bad xref"],
   none, some "poppler not found", []⟩

def pC7 : String := "/allowed/pdfs/mixed.pdf"

def wC7 : World := ⟨⟨[(pC7, ⟨[7], "", exDocC7⟩)]⟩, []⟩

/-- A sibling-named path outside the allowed root directory whose string
nevertheless starts with the root's string. -/
def pSibling : String := "/home/u/pdfsEvil/x.pdf"

def rootsEx : List String := ["/home/u/pdfs"]

def cfgSib : Config := ⟨rootsEx, fun _ => "0123456789abcdef0123456789abcdef"⟩

def wSib : World := ⟨⟨[(pSibling, ⟨[9], "", exDirectDoc⟩)]⟩, []⟩

/-- A file `PyPDF2` cannot open at all. -/
def exBadDoc : PdfDoc := ⟨[], some "EOF marker not found", none, []⟩

/-- Two PDFs with identical bytes under different names in one directory. -/
def wTwo : World :=
  ⟨⟨[("/allowed/pdfs/a.pdf", ⟨[1, 2, 3], "", exScanDoc⟩),
     ("/allowed/pdfs/b.pdf", ⟨[1, 2, 3], "", exScanDoc⟩)]⟩, []⟩

/-- The OCR output for `exDirectDoc`. -/
def exOcrTextDir : String := pageBlockOk 1 "OCRTEXT"

/-- An empty world: no files, empty caches. -/
def wEmpty : World := ⟨⟨[]⟩, []⟩

/-- A world with a single PDF at an existing path outside the allowed
roots of `cfgSib` (and not reachable by the prefix test either). -/
def wC4 : World := ⟨⟨[("/outside/secret.pdf", ⟨[3], "", exDirectDoc⟩)]⟩, []⟩

/-- A world with a PDF inside a directory outside the allowed roots of
`cfgSib`, for exercising the directory listing. -/
def wList : World := ⟨⟨[("/outside/docs/a.pdf", ⟨[8], "", exScanDoc⟩)]⟩, []⟩

/-- C9: the confinement check is a plain string-prefix test on absolute
paths with no trailing-separator handling, so a sibling directory whose
name extends an allowed root's name passes `is_path_allowed`, and the
document operations go on to read such a file: `pSibling` lies outside
the root `/home/u/pdfs` in the filesystem sense, yet `is_path_allowed`
accepts it and `extract_pdf_text` successfully extracts its text. -/
theorem C9_prefix_confinement_bypass :
    isInsideAny rootsEx pSibling = false ∧
    is_path_allowed rootsEx pSibling = true ∧
    (extract_pdf_text cfgSib wSib pSibling none false).1 = Except.ok exDirectText :=
  ⟨by decide, by decide, by decide⟩

/-- C3: the code_bug exhibit.  The Python local `actual_page` is first
assigned inside the `try` block after the OCR call, so when OCR fails on
the very first image the `except` handler's reference to `actual_page`
raises `NameError` and the whole extraction aborts with
`Error performing OCR on PDF: name 'actual_page' is not defined` —
no placeholder block, no remaining pages (first conjunct).  When a later
page fails, the handler does append a placeholder and continue, which is
plainly the intended behavior (second conjunct) — though it labels the
placeholder with the previous page's number. -/
theorem C3_first_page_ocr_failure_aborts :
    extract_text_with_ocr exDocFirstFail none =
      Except.error "Error performing OCR on PDF: name \x27actual_page\x27 is not defined" ∧
    extract_text_with_ocr exDocSecondFail none =
      Except.ok (pageBlockOk 1 "hello" ++ "\n" ++ pageBlockErr 1 "boom") :=
  ⟨by decide, by decide⟩

/-- C1 counterexample: the persistent cache path is NOT addressed by
file content only.  Two files with byte-identical content (`a.pdf` and
`b.pdf` in the same allowed directory) get different cache file paths,
because `get_cache_file_path` embeds the PDF's base name in the cache
filename; renaming a cached PDF therefore misses the cache, contrary to
the claim that `get_cache_file_path` yields the same path. -/
theorem C1_counterexample :
    (wTwo.fs.find "/allowed/pdfs/a.pdf").map File.bytes =
      (wTwo.fs.find "/allowed/pdfs/b.pdf").map File.bytes ∧
    get_cache_file_path cfgEx wTwo.fs "/allowed/pdfs/a.pdf" =
      Except.ok "/allowed/pdfs/a_ocr_01234567.txt" ∧
    get_cache_file_path cfgEx wTwo.fs "/allowed/pdfs/b.pdf" =
      Except.ok "/allowed/pdfs/b_ocr_01234567.txt" ∧
    ("/allowed/pdfs/a_ocr_01234567.txt" : String) ≠ "/allowed/pdfs/b_ocr_01234567.txt" :=
  ⟨by decide, by decide, by decide, by decide⟩

/-- C2 counterexample: for the non-ascending request `[3, 1]` on a
three-page document, the images come back in ascending page order
(pages 1 and 3) while the labels are read positionally from the request
list, so the block labeled `Page 3` carries page 1's OCR text `ONE` and
the block labeled `Page 1` carries page 3's text `THREE` — labels are
not mapped to the correct rasterized image. -/
theorem C2_counterexample :
    extract_text_with_ocr exDocThree (some [3, 1]) =
      Except.ok (pageBlockOk 3 "ONE" ++ "\n" ++ pageBlockOk 1 "THREE") ∧
    exDocThree.ocrOf 1 = Except.ok "ONE" ∧
    exDocThree.ocrOf 3 = Except.ok "THREE" ∧
    pageBlockOk 3 "ONE" ≠ pageBlockOk 3 "THREE" :=
  ⟨by decide, by decide, by decide, by decide⟩

/-- C5 counterexample: the second of two identical whole-document
`extract` calls on a scanned PDF is served from the persistent OCR cache
but returns the cached text with the `[Using cached OCR text]` banner
prepended, so the two calls are not byte-identical. -/
theorem C5_counterexample :
    (extract_pdf_text cfgEx wScan pScan none false).1 = Except.ok exOcrText ∧
    (extract_pdf_text cfgEx (extract_pdf_text cfgEx wScan pScan none false).2
        pScan none false).1 =
      Except.ok ("[Using cached OCR text]\n\n" ++ exOcrText) ∧
    ("[Using cached OCR text]\n\n" ++ exOcrText) ≠ exOcrText :=
  ⟨by decide, by decide, by decide⟩

/-- C4 counterexample, refuting the original claim in three ways.
First, the sibling path `pSibling` is outside every allow-listed root
yet `is_path_allowed` accepts it, so "for all paths p outside every
allow-listed root, isAllowed(p) returns false" fails.  Second, a
nonexistent path outside the roots fails with the not-found error, not
the permission error, because `extract_pdf_text` checks existence
before confinement.  Third, `listDocuments` does not fail with
PermissionDenied at all: `find_pdf_files` on a disallowed directory
that does contain a PDF silently skips it and returns the empty
listing (its result type carries no error). -/
theorem C4_counterexample :
    isInsideAny rootsEx pSibling = false ∧
    is_path_allowed rootsEx pSibling = true ∧
    extract_pdf_text cfgSib wEmpty "/outside/nope.pdf" none false =
      (Except.error "PDF file not found: /outside/nope.pdf", wEmpty) ∧
    is_path_allowed rootsEx "/outside/docs" = false ∧
    wList.fs.pathExists "/outside/docs/a.pdf" = true ∧
    find_pdf_files cfgSib wList.fs (some "/outside/docs") = [] :=
  ⟨by decide, by decide, by decide, by decide, by decide, by decide⟩

/-- C8 counterexample: an in-memory cache entry IS replaced.  A first
whole-document extract of a text-bearing PDF caches its direct text;
a second call with `force_ocr` bypasses the cache read, re-extracts via
OCR, and — the cache being below capacity — overwrites the same key with
the different OCR text, contradicting "no entry is ever evicted or
replaced". -/
theorem C8_counterexample :
    lookupCache (extract_pdf_text cfgEx wDir pEx none false).2.pdf_cache
      (cache_key pEx none) = some exDirectText ∧
    lookupCache (extract_pdf_text cfgEx (extract_pdf_text cfgEx wDir pEx none false).2
        pEx none true).2.pdf_cache (cache_key pEx none) = some exOcrTextDir ∧
    exDirectText ≠ exOcrTextDir :=
  ⟨by decide, by decide, by decide⟩

/-- Helper: when the path exists, is allowed, the page argument is falsy,
the persistent cache misses and the in-memory cache holds the key, the
orchestrator returns the cached text with the world unchanged. -/
theorem extract_mem_hit (cfg : Config) (w : World) (p : String)
    (pn : Option (List Nat)) (t : String)
    (hex : w.fs.pathExists p = true)
    (hal : is_path_allowed cfg.allowed p = true)
    (htr : pagesTruthy pn = false)
    (hld : load_cached_text cfg w.fs p = Except.ok none)
    (hmem : lookupCache w.pdf_cache (cache_key p pn) = some t) :
    extract_pdf_text cfg w p pn false = (Except.ok t, w) := by
  simp [extract_pdf_text, hex, hal, htr, hld, extract_after_persist, hmem]

/-- Helper: a persistent-cache hit with nonempty cached text returns the
banner-prefixed cached text with the world unchanged. -/
theorem extract_banner_hit (cfg : Config) (w : World) (p : String)
    (pn : Option (List Nat)) (t : String)
    (hex : w.fs.pathExists p = true)
    (hal : is_path_allowed cfg.allowed p = true)
    (htr : pagesTruthy pn = false)
    (hld : load_cached_text cfg w.fs p = Except.ok (some t))
    (htne : t ≠ "") :
    extract_pdf_text cfg w p pn false = (Except.ok ("[Using cached OCR text]\n\n" ++ t), w) := by
  simp [extract_pdf_text, hex, hal, htr, hld, htne]

/-- C5 (amended): two identical `extract` calls (no forced OCR, falsy
page argument) behave as follows.  If the persistent cache has no entry
for the path and the in-memory cache maps the call's key to `t` — the
state after a first call whose result was admitted to the in-memory
cache without persisting — the second call returns exactly `t` from the
in-memory tier, with no state change and no re-extraction.  If instead
the persistent tier holds nonempty text `t2` (the state after a first
whole-document OCR call), the second call is served from disk but
returns `t2` with the `[Using cached OCR text]` banner prepended — not
byte-identical output. -/
theorem C5_second_call_cache_behavior (cfg : Config) (w : World) (p : String)
    (pn : Option (List Nat))
    (hex : w.fs.pathExists p = true)
    (hal : is_path_allowed cfg.allowed p = true)
    (htr : pagesTruthy pn = false) :
    (∀ t, load_cached_text cfg w.fs p = Except.ok none →
       lookupCache w.pdf_cache (cache_key p pn) = some t →
       extract_pdf_text cfg w p pn false = (Except.ok t, w)) ∧
    (∀ t2, load_cached_text cfg w.fs p = Except.ok (some t2) → t2 ≠ "" →
       extract_pdf_text cfg w p pn false =
         (Except.ok ("[Using cached OCR text]\n\n" ++ t2), w)) := by
  constructor
  · intro t hld hmem
    exact extract_mem_hit cfg w p pn t hex hal htr hld hmem
  · intro t2 hld htne
    exact extract_banner_hit cfg w p pn t2 hex hal htr hld htne

/-- C5 witness: in the world `wDirHit` (report.pdf on disk, its
whole-document text already in the in-memory cache, no persistent
entry), a repeated call returns exactly the cached text with the world
unchanged. -/
theorem C5_second_call_cache_behavior_witness :
    extract_pdf_text cfgEx wDirHit pEx none false = (Except.ok exDirectText, wDirHit) :=
  (C5_second_call_cache_behavior cfgEx wDirHit pEx none (by decide) (by decide)
      (by decide)).1 exDirectText (by decide) (by decide)

/-- C4 (amended): the confinement property holds for the string-prefix
reading of "outside": for every path `p` such that no allowed root's
string is a character prefix of `p`'s, `is_path_allowed` returns false;
`extract` on such a path, when the file exists, fails with the
permission-denied error without touching any state, and `search`
(which funnels through the same extraction path) surfaces the same
message; when the file does not exist, the not-found error is raised
first instead (existence is checked before confinement); and
`listDocuments` never produces a permission-denied failure: given such
a `p` (nonempty, so Python truthiness selects it) as the directory to
search, `find_pdf_files` silently skips it and returns the empty
listing. -/
theorem C4_confinement_rejection (cfg : Config) (w : World) (p : String)
    (pn : Option (List Nat)) (f : Bool) (term : String) (cs : Bool)
    (h : ∀ d ∈ cfg.allowed, startswith d p = false) :
    is_path_allowed cfg.allowed p = false ∧
    (w.fs.pathExists p = true →
      extract_pdf_text cfg w p pn f = (Except.error s!"Access denied to file: {p}", w) ∧
      search_pdf_content cfg w p term cs =
        (searchErrorMessage p s!"Access denied to file: {p}", w)) ∧
    (w.fs.pathExists p = false →
      extract_pdf_text cfg w p pn f = (Except.error s!"PDF file not found: {p}", w)) ∧
    (p ≠ "" → find_pdf_files cfg w.fs (some p) = []) := by
  have hal : is_path_allowed cfg.allowed p = false := by
    simp only [is_path_allowed, List.any_eq_false]
    intro d hd
    simp [h d hd]
  refine ⟨hal, ?_, ?_, ?_⟩
  · intro hex
    have hext2 : extract_pdf_text cfg w p none false =
        (Except.error s!"Access denied to file: {p}", w) := by
      simp [extract_pdf_text, hex, hal]
    refine ⟨by simp [extract_pdf_text, hex, hal], ?_⟩
    simp [search_pdf_content, hext2]
  · intro hex
    simp [extract_pdf_text, hex]
  · intro hpne
    simp [find_pdf_files, hpne, hal, pySorted]

/-- C4 witness: the permission-denied conclusion applied to an existing
PDF at `/outside/secret.pdf` (for both `extract` and `search`), the
silent empty listing for the same disallowed directory argument, and
the not-found-first ordering at a nonexistent outside path. -/
theorem C4_confinement_rejection_witness :
    extract_pdf_text cfgSib wC4 "/outside/secret.pdf" none false =
      (Except.error s!"Access denied to file: /outside/secret.pdf", wC4) ∧
    search_pdf_content cfgSib wC4 "/outside/secret.pdf" "hoa" false =
      (searchErrorMessage "/outside/secret.pdf"
        s!"Access denied to file: /outside/secret.pdf", wC4) ∧
    find_pdf_files cfgSib wC4.fs (some "/outside/secret.pdf") = [] ∧
    extract_pdf_text cfgSib wSib "/home/u/elsewhere/x.pdf" none false =
      (Except.error s!"PDF file not found: /home/u/elsewhere/x.pdf", wSib) :=
  ⟨((C4_confinement_rejection cfgSib wC4 "/outside/secret.pdf" none false "hoa" false
      (by decide)).2.1 (by decide)).1,
   ((C4_confinement_rejection cfgSib wC4 "/outside/secret.pdf" none false "hoa" false
      (by decide)).2.1 (by decide)).2,
   (C4_confinement_rejection cfgSib wC4 "/outside/secret.pdf" none false "hoa" false
      (by decide)).2.2.2 (by decide),
   (C4_confinement_rejection cfgSib wSib "/home/u/elsewhere/x.pdf" none false "hoa" false
      (by decide)).2.2.1 (by decide)⟩

/-- C7: when direct extraction is chosen (scan detector reports text,
OCR not forced) and raises error `e`, the orchestrator automatically
retries with OCR, and when that retry raises `o` the surfaced error
message carries both `e` and `o`, not only the last one. -/
theorem C7_combined_fallback_error (cfg : Config) (w : World) (p : String)
    (pn : Option (List Nat)) (file : File) (e o : String)
    (hfind : w.fs.find p = some file)
    (hal : is_path_allowed cfg.allowed p = true)
    (hld : pagesTruthy pn = false → load_cached_text cfg w.fs p = Except.ok none)
    (hmem : lookupCache w.pdf_cache (cache_key p pn) = none)
    (hhas : has_extractable_text file.doc 3 = true)
    (hdir : extractDirect file.doc pn = Except.error e)
    (hocr : extract_text_with_ocr file.doc pn = Except.error o) :
    extract_pdf_text cfg w p pn false =
      (Except.error
        s!"Both regular extraction and OCR failed. Regular error: {e}, OCR error: {o}", w) := by
  have hex : w.fs.pathExists p = true := by simp [FS.pathExists, hfind]
  have hafter : extract_after_persist cfg w p pn false =
      (Except.error
        s!"Both regular extraction and OCR failed. Regular error: {e}, OCR error: {o}", w) := by
    simp [extract_after_persist, hmem, tryExtract, hfind, hhas, hdir, hocr]
  cases htr : pagesTruthy pn with
  | true => simp [extract_pdf_text, hex, hal, htr, hafter]
  | false => simp [extract_pdf_text, hex, hal, htr, hld htr, hafter]

/-- C7 witness: a document whose three sampled pages pass the scan
threshold, whose fourth page's direct extraction raises `bad xref`, and
whose rasterization fails with `poppler not found`; the surfaced error
names both causes. -/
theorem C7_combined_fallback_error_witness :
    extract_pdf_text cfgEx wC7 pC7 none false =
      (Except.error ("Both regular extraction and OCR failed. Regular error: bad xref, " ++
        "OCR error: Error performing OCR on PDF: poppler not found"), wC7) :=
  C7_combined_fallback_error cfgEx wC7 pC7 none ⟨[7], "", exDocC7⟩ "bad xref"
    "Error performing OCR on PDF: poppler not found" (by decide) (by decide)
    (fun _ => by decide) (by decide) (by decide) (by decide) (by decide)

/-- Helper: inserting into the in-memory cache grows it by at most one
entry (Python dict assignment replaces on an existing key). -/
theorem cacheInsert_length_le (c : List (String × String)) (k v : String) :
    (cacheInsert c k v).length ≤ c.length + 1 := by
  unfold cacheInsert
  split <;> simp

/-- Helper: after writing key `k`, the first match of the predicate
selecting `k` is exactly `(k, v)`, provided `k` was present. -/
theorem find?_map_write_self (c : List (String × String)) (k v : String)
    (h : c.any (fun kv => kv.1 = k) = true) :
    (c.map (fun kv => if kv.1 = k then (k, v) else kv)).find?
      (fun kv => kv.1 = k) = some (k, v) := by
  induction c with
  | nil => simp at h
  | cons kv rest ih =>
    by_cases hk : kv.1 = k
    · simp [List.find?_cons, hk]
    · have h2 : rest.any (fun kv => kv.1 = k) = true := by
        simp only [List.any_cons, Bool.or_eq_true, decide_eq_true_eq] at h
        rcases h with h | h
        · exact absurd h hk
        · exact h
      simp [List.find?_cons, hk, ih h2]

/-- Helper: writing key `k` leaves lookups of any other key unchanged. -/
theorem find?_map_write_ne (c : List (String × String)) (k v k' : String)
    (hne : k' ≠ k) :
    (c.map (fun kv => if kv.1 = k then (k, v) else kv)).find?
      (fun kv => kv.1 = k') = c.find? (fun kv => kv.1 = k') := by
  induction c with
  | nil => rfl
  | cons kv rest ih =>
    by_cases hk : kv.1 = k
    · have e1 : (if kv.1 = k then (k, v) else kv) = (k, v) := if_pos hk
      rw [List.map_cons, e1, List.find?_cons, List.find?_cons]
      have d1 : (decide ((k, v).1 = k')) = false :=
        decide_eq_false (fun hh => hne hh.symm)
      have d2 : (decide (kv.1 = k')) = false := by
        rw [hk]
        exact decide_eq_false (fun hh => hne hh.symm)
      rw [d1, d2]
      exact ih
    · have e1 : (if kv.1 = k then (k, v) else kv) = kv := if_neg hk
      rw [List.map_cons, e1, List.find?_cons, List.find?_cons]
      cases d : (decide (kv.1 = k')) with
      | true => rfl
      | false => exact ih

/-- Helper: a cache lookup of the inserted key yields the new value. -/
theorem lookupCache_cacheInsert_self (c : List (String × String)) (k v : String) :
    lookupCache (cacheInsert c k v) k = some v := by
  unfold cacheInsert lookupCache
  split
  · rename_i h
    rw [find?_map_write_self c k v h]
    rfl
  · rename_i h
    have hn : c.find? (fun kv => kv.1 = k) = none := by
      rw [List.find?_eq_none]
      intro a ha
      intro hcontra
      have : c.any (fun kv => kv.1 = k) = true := by
        rw [List.any_eq_true]
        exact ⟨a, ha, hcontra⟩
      simp [this] at h
    rw [List.find?_append, hn]
    simp [List.find?_cons]

/-- Helper: a cache lookup of a different key is unaffected by insert. -/
theorem lookupCache_cacheInsert_ne (c : List (String × String)) (k v k' : String)
    (hne : k' ≠ k) :
    lookupCache (cacheInsert c k v) k' = lookupCache c k' := by
  unfold cacheInsert lookupCache
  split
  · rw [find?_map_write_ne c k v k' hne]
  · rw [List.find?_append]
    cases hf : c.find? (fun kv => kv.1 = k') with
    | some kv => simp
    | none =>
      have d : (decide ((k, v).1 = k')) = false :=
        decide_eq_false (fun hh => hne hh.symm)
      simp [List.find?_cons, d]

/-- Helper: across a single `extract_pdf_text` call the in-memory cache
either stays unchanged, or — only when it held fewer than 10 entries —
receives one inserted value under the call's key. -/
theorem extract_cache_shape (cfg : Config) (w : World) (p : String)
    (pn : Option (List Nat)) (f : Bool) :
    (extract_pdf_text cfg w p pn f).2.pdf_cache = w.pdf_cache ∨
    (w.pdf_cache.length < 10 ∧
      ∃ v, (extract_pdf_text cfg w p pn f).2.pdf_cache =
        cacheInsert w.pdf_cache (cache_key p pn) v) := by
  unfold extract_pdf_text extract_after_persist
  repeat' split
  all_goals first
    | exact Or.inl rfl
    | (rename_i hlt _ _; exact Or.inr ⟨hlt, _, rfl⟩)
    | (rename_i hlt _; exact Or.inr ⟨hlt, _, rfl⟩)
    | (rename_i hlt; exact Or.inr ⟨hlt, _, rfl⟩)

/-- C8 (amended): the in-memory cache never exceeds 10 entries, existing
keys are never evicted, and a state change to the cache happens only
while it holds fewer than 10 entries; however an existing key's value
can be overwritten (by a `force_ocr` re-extraction), so "no entry is
ever replaced" does not hold (see the counterexample). -/
theorem C8_cache_bound (cfg : Config) (w : World) (p : String)
    (pn : Option (List Nat)) (f : Bool) :
    (w.pdf_cache.length ≤ 10 →
       (extract_pdf_text cfg w p pn f).2.pdf_cache.length ≤ 10) ∧
    (∀ k, (lookupCache w.pdf_cache k).isSome = true →
       (lookupCache (extract_pdf_text cfg w p pn f).2.pdf_cache k).isSome = true) ∧
    ((extract_pdf_text cfg w p pn f).2.pdf_cache ≠ w.pdf_cache →
       w.pdf_cache.length < 10) := by
  rcases extract_cache_shape cfg w p pn f with hsame | ⟨hlt, v, hins⟩
  · rw [hsame]
    exact ⟨fun h => h, fun k h => h, fun hne => absurd rfl hne⟩
  · rw [hins]
    refine ⟨fun _ => ?_, fun k hk => ?_, fun _ => hlt⟩
    · have h1 := cacheInsert_length_le w.pdf_cache (cache_key p pn) v
      omega
    · by_cases hkk : k = cache_key p pn
      · rw [hkk, lookupCache_cacheInsert_self]
        rfl
      · rw [lookupCache_cacheInsert_ne _ _ _ _ hkk]
        exact hk

/-- C8 witness: the bound instantiated on a concrete first extraction. -/
theorem C8_cache_bound_witness :
    (extract_pdf_text cfgEx wDir pEx none false).2.pdf_cache.length ≤ 10 :=
  (C8_cache_bound cfgEx wDir pEx none false).1 (by decide)

/-- Helper: the sampling loop propagates any per-page extraction error. -/
theorem sampleTotal_error (l : List (Except String String)) (e : String)
    (h : Except.error e ∈ l) : ∃ e2, sampleTotal l = Except.error e2 := by
  induction l with
  | nil => cases h
  | cons x rest ih =>
    cases x with
    | error e3 => exact ⟨e3, rfl⟩
    | ok t =>
      have h2 : Except.error e ∈ rest := by
        rcases List.mem_cons.mp h with h1 | h2
        · cases h1
        · exact h2
      rcases ih h2 with ⟨e2, he2⟩
      exact ⟨e2, by simp [sampleTotal, he2]⟩

/-- C10: the scan classifier is total over failing inputs — whenever
opening the file fails, any sampled page's text extraction fails, or the
document has no sampled pages (Python's division by zero), the catch-all
returns `false` (classified as needing OCR) instead of propagating, so
classification never aborts the request. -/
theorem C10_scan_classifier_total (doc : PdfDoc) (k : Nat)
    (h : doc.openError ≠ none ∨
         (∃ e, Except.error e ∈ doc.pages.take (min k doc.pages.length)) ∨
         min k doc.pages.length = 0) :
    has_extractable_text doc k = false := by
  unfold has_extractable_text hasTextBody
  cases hoe : doc.openError with
  | some e2 => simp
  | none =>
    rcases h with h | ⟨e, he⟩ | h
    · exact absurd hoe h
    · rcases sampleTotal_error _ e he with ⟨e2, h2⟩
      simp [h2]
    · simp [h, sampleTotal]

/-- C10 witness: a file `PyPDF2` cannot open is classified `false`. -/
theorem C10_scan_classifier_total_witness :
    has_extractable_text exBadDoc 3 = false :=
  C10_scan_classifier_total exBadDoc 3 (Or.inl (by decide))

/-- Helper: joining two names onto the same directory is injective in
the name. -/
theorem pathJoin_inj (d n1 n2 : String) (h : pathJoin d n1 = pathJoin d n2) :
    n1 = n2 := by
  unfold pathJoin at h
  split at h
  · exact h
  · have hd := congrArg String.data h
    simp only [String.data_append, List.append_assoc] at hd
    exact String.ext (List.append_cancel_left (List.append_cancel_left hd))

/-- Helper: the cache filename `<stem>_ocr_<hash8>.txt` determines the
stem and the hash fragment, given hash fragments of equal length 8. -/
theorem cacheName_inj (s1 s2 h1 h2 : String)
    (hl1 : h1.length = 8) (hl2 : h2.length = 8)
    (h : s1 ++ "_ocr_" ++ h1 ++ ".txt" = s2 ++ "_ocr_" ++ h2 ++ ".txt") :
    s1 = s2 ∧ h1 = h2 := by
  have e1 : h1.data.length = 8 := hl1
  have e2 : h2.data.length = 8 := hl2
  have hd := congrArg String.data h
  simp only [String.data_append, List.append_assoc] at hd
  have hparts := List.append_inj hd (by
    have hc := congrArg List.length hd
    simp only [List.length_append] at hc
    omega)
  refine ⟨String.ext hparts.1, ?_⟩
  have htail := List.append_cancel_left hparts.2
  exact String.ext (List.append_cancel_right htail)

/-- C1 (amended): the persistent cache path is determined jointly by the
document's directory, base-name stem, and the first 8 characters of the
content hash.  For two on-disk files in the same directory (hash
fragments having the expected length 8): identical stems and identical
bytes give the same cache path, different stems give different cache
paths (so renaming misses), and identical stems with different hash
fragments give different cache paths (so modified content misses). -/
theorem C1_cache_path_addressing (cfg : Config) (fs : FS) (p q : String)
    (fp fq : File)
    (hp : fs.find p = some fp) (hq : fs.find q = some fq)
    (hdir : dirname p = dirname q)
    (hl1 : ((cfg.md5hex fp.bytes).take 8).length = 8)
    (hl2 : ((cfg.md5hex fq.bytes).take 8).length = 8) :
    (fp.bytes = fq.bytes ∧ stemOfBase (basename p) = stemOfBase (basename q) →
       get_cache_file_path cfg fs p = get_cache_file_path cfg fs q) ∧
    (stemOfBase (basename p) ≠ stemOfBase (basename q) →
       get_cache_file_path cfg fs p ≠ get_cache_file_path cfg fs q) ∧
    (stemOfBase (basename p) = stemOfBase (basename q) ∧
       (cfg.md5hex fp.bytes).take 8 ≠ (cfg.md5hex fq.bytes).take 8 →
       get_cache_file_path cfg fs p ≠ get_cache_file_path cfg fs q) := by
  have hep : get_cache_file_path cfg fs p = Except.ok (pathJoin (dirname p)
      (stemOfBase (basename p) ++ "_ocr_" ++ (cfg.md5hex fp.bytes).take 8 ++ ".txt")) := by
    simp [get_cache_file_path, get_pdf_hash, hp]
  have heq : get_cache_file_path cfg fs q = Except.ok (pathJoin (dirname q)
      (stemOfBase (basename q) ++ "_ocr_" ++ (cfg.md5hex fq.bytes).take 8 ++ ".txt")) := by
    simp [get_cache_file_path, get_pdf_hash, hq]
  refine ⟨?_, ?_, ?_⟩
  · rintro ⟨hby, hst⟩
    rw [hep, heq, hdir, hst, hby]
  · intro hst hcontra
    rw [hep, heq, hdir] at hcontra
    have hj := pathJoin_inj _ _ _ (Except.ok.inj hcontra)
    exact hst (cacheName_inj _ _ _ _ hl1 hl2 hj).1
  · rintro ⟨hst, hh⟩ hcontra
    rw [hep, heq, hdir] at hcontra
    have hj := pathJoin_inj _ _ _ (Except.ok.inj hcontra)
    exact hh (cacheName_inj _ _ _ _ hl1 hl2 hj).2

/-- C1 witness: instantiated on the two byte-identical files `a.pdf` and
`b.pdf`; the differing stems force differing cache paths. -/
theorem C1_cache_path_addressing_witness :
    get_cache_file_path cfgEx wTwo.fs "/allowed/pdfs/a.pdf" ≠
      get_cache_file_path cfgEx wTwo.fs "/allowed/pdfs/b.pdf" :=
  (C1_cache_path_addressing cfgEx wTwo.fs "/allowed/pdfs/a.pdf" "/allowed/pdfs/b.pdf"
      ⟨[1, 2, 3], "", exScanDoc⟩ ⟨[1, 2, 3], "", exScanDoc⟩
      (by decide) (by decide) (by decide) (by decide) (by decide)).2.1 (by decide)

/-- Helper: a successful `tryExtract` leaves the filesystem unchanged or
adds exactly the persistent cache entry for the returned text. -/
theorem tryExtract_ok_fs (cfg : Config) (w : World) (p : String)
    (pn : Option (List Nat)) (f : Bool) (t : String) (fs2 : FS)
    (h : tryExtract cfg w p pn f = Except.ok (t, fs2)) :
    fs2 = w.fs ∨ fs2 = save_cached_text cfg w.fs p t := by
  unfold tryExtract at h
  repeat' split at h
  all_goals first
    | exact Except.noConfusion h
    | (rw [Except.ok.injEq, Prod.mk.injEq] at h
       obtain ⟨h1, h2⟩ := h
       subst h1
       first | exact Or.inl h2.symm | exact Or.inr h2.symm)

/-- Helper: world characterization of a successful
`extract_after_persist` call — the world is unchanged, or the in-memory
cache receives the returned text (only below capacity) with the
filesystem unchanged or extended by the persistent entry, or (fallback
path) only the persistent entry is written. -/
theorem after_persist_ok_world (cfg : Config) (w : World) (p : String)
    (pn : Option (List Nat)) (f : Bool) (t : String) (w2 : World)
    (hok : extract_after_persist cfg w p pn f = (Except.ok t, w2)) :
    w2 = w ∨
    (w2.pdf_cache = (if w.pdf_cache.length < 10 then
        cacheInsert w.pdf_cache (cache_key p pn) t else w.pdf_cache) ∧
     (w2.fs = w.fs ∨ w2.fs = save_cached_text cfg w.fs p t)) ∨
    (w2.pdf_cache = w.pdf_cache ∧ w2.fs = save_cached_text cfg w.fs p t) := by
  unfold extract_after_persist at hok
  split at hok
  · rw [Prod.mk.injEq] at hok
    exact Or.inl hok.2.symm
  · split at hok
    · rename_i t0 fs2 heq
      rw [Prod.mk.injEq, Except.ok.injEq] at hok
      obtain ⟨h1, h2⟩ := hok
      subst h1
      rcases tryExtract_ok_fs cfg w p pn f t0 fs2 heq with hfs | hfs
      · refine Or.inr (Or.inl ⟨?_, Or.inl ?_⟩)
        · rw [← h2]
        · rw [← h2]
          exact hfs
      · refine Or.inr (Or.inl ⟨?_, Or.inr ?_⟩)
        · rw [← h2]
        · rw [← h2]
          exact hfs
    · split at hok
      · split at hok
        · rename_i t1 heq2
          rw [Prod.mk.injEq, Except.ok.injEq] at hok
          obtain ⟨h1, h2⟩ := hok
          subst h1
          cases hpt : pagesTruthy pn with
          | true =>
            rw [hpt] at h2
            rw [← h2]
            exact Or.inl rfl
          | false =>
            rw [hpt] at h2
            rw [← h2]
            exact Or.inr (Or.inr ⟨rfl, rfl⟩)
        · rw [Prod.mk.injEq] at hok
          exact Except.noConfusion hok.1
      · rw [Prod.mk.injEq] at hok
        exact Except.noConfusion hok.1

/-- Helper: world characterization of a successful `extract_pdf_text`
call, lifted over the guards and the persistent-cache check. -/
theorem extract_ok_world (cfg : Config) (w : World) (p : String)
    (pn : Option (List Nat)) (f : Bool) (t : String) (w2 : World)
    (hok : extract_pdf_text cfg w p pn f = (Except.ok t, w2)) :
    w2 = w ∨
    (w2.pdf_cache = (if w.pdf_cache.length < 10 then
        cacheInsert w.pdf_cache (cache_key p pn) t else w.pdf_cache) ∧
     (w2.fs = w.fs ∨ w2.fs = save_cached_text cfg w.fs p t)) ∨
    (w2.pdf_cache = w.pdf_cache ∧ w2.fs = save_cached_text cfg w.fs p t) := by
  unfold extract_pdf_text at hok
  split at hok
  · rw [Prod.mk.injEq] at hok
    exact Except.noConfusion hok.1
  · split at hok
    · rw [Prod.mk.injEq] at hok
      exact Except.noConfusion hok.1
    · split at hok
      · exact after_persist_ok_world cfg w p pn f t w2 hok
      · split at hok
        · rw [Prod.mk.injEq] at hok
          exact Except.noConfusion hok.1
        · split at hok
          · exact after_persist_ok_world cfg w p pn f t w2 hok
          · rw [Prod.mk.injEq] at hok
            exact Or.inl hok.2.symm
        · exact after_persist_ok_world cfg w p pn f t w2 hok

/-- Helper: rewriting one key of a path-to-file association list leaves
every lookup either unchanged or pointing at the written text file. -/
theorem find?_write_file (l : List (String × File)) (cf q : String) (t : String) :
    ((l.map (fun kv => if kv.1 = cf then (cf, textFile t) else kv)).find?
       (fun kv => kv.1 = q)).map (fun kv => kv.2) =
      (l.find? (fun kv => kv.1 = q)).map (fun kv => kv.2) ∨
    ((l.map (fun kv => if kv.1 = cf then (cf, textFile t) else kv)).find?
       (fun kv => kv.1 = q)).map (fun kv => kv.2) = some (textFile t) := by
  induction l with
  | nil => exact Or.inl rfl
  | cons kv rest ih =>
    by_cases hk : kv.1 = cf
    · have e1 : (if kv.1 = cf then (cf, textFile t) else kv) = (cf, textFile t) := if_pos hk
      rw [List.map_cons, e1, List.find?_cons, List.find?_cons]
      by_cases hq : cf = q
      · have d1 : (decide ((cf, textFile t).1 = q)) = true := decide_eq_true hq
        rw [d1]
        exact Or.inr rfl
      · have d1 : (decide ((cf, textFile t).1 = q)) = false := decide_eq_false hq
        have d2 : (decide (kv.1 = q)) = false := by
          rw [hk]
          exact decide_eq_false hq
        rw [d1, d2]
        exact ih
    · have e1 : (if kv.1 = cf then (cf, textFile t) else kv) = kv := if_neg hk
      rw [List.map_cons, e1, List.find?_cons, List.find?_cons]
      cases d : (decide (kv.1 = q)) with
      | true => exact Or.inl rfl
      | false => exact ih

/-- Helper: after a `writeText`, every path resolves to what it resolved
to before, or to the freshly written text file. -/
theorem FS_writeText_find (fs : FS) (pth t q : String) :
    (fs.writeText pth t).find q = fs.find q ∨
    (fs.writeText pth t).find q = some (textFile t) := by
  unfold FS.writeText FS.find
  split
  · exact find?_write_file fs.files pth q t
  · rw [List.find?_append]
    cases hf : fs.files.find? (fun kv => kv.1 = q) with
    | some kv => exact Or.inl (by simp)
    | none =>
      by_cases hq : pth = q
      · refine Or.inr ?_
        have d : (decide ((pth, textFile t).1 = q)) = true := decide_eq_true hq
        simp [List.find?_cons, d]
      · refine Or.inl ?_
        have d : (decide ((pth, textFile t).1 = q)) = false := decide_eq_false hq
        simp [List.find?_cons, d]

/-- Helper: `save_cached_text` changes at most one path, and whatever it
changes holds exactly the saved text. -/
theorem save_cached_text_find (cfg : Config) (fs : FS) (p t q : String) :
    (save_cached_text cfg fs p t).find q = fs.find q ∨
    (save_cached_text cfg fs p t).find q = some (textFile t) := by
  unfold save_cached_text
  split
  · exact Or.inl rfl
  · exact FS_writeText_find fs _ t q

/-- Helper: when some line of the text contains the term, the match
collection of `search_pdf_content` is nonempty. -/
theorem buildMatches_mem_ne_nil (lines : List String) (term : String)
    (h : ∃ ln ∈ lines, strIn term ln = true) : buildMatches lines term ≠ [] := by
  rcases h with ⟨ln, hmem, hin⟩
  intro hnil
  unfold buildMatches at hnil
  rw [List.filterMap_eq_nil_iff] at hnil
  obtain ⟨i, hi⟩ := List.mem_iff_getElem?.mp hmem
  have hpair : (i, ln) ∈ lines.enum := by
    rw [List.mem_enum_iff_getElem?]
    exact hi
  have hcontra := hnil _ hpair
  simp [hin] at hcontra

/-- C6: truncation is presentation-only.  Whenever `extract_pdf_text`
succeeds with text `t`, the `read_pdf` handler returns `t` truncated at
15000 characters with the explicit notice appended (first two
conjuncts), while the state it passes on is exactly the extraction's
state: any in-memory cache entry written under the call's key holds the
full untruncated `t` (third conjunct), any changed on-disk entry holds
the full untruncated `t` (fourth conjunct), and a subsequent
whole-document `search` over a state whose in-memory tier holds `t` (no
persistent entry) searches the full `t`, so a term on any line of `t` —
including beyond the 15000-character boundary — is found (fifth
conjunct). -/
theorem C6_truncation_presentation_only (cfg : Config) (w : World) (p : String)
    (pn : Option (List Nat)) (f : Bool) (t : String) (w2 : World)
    (hok : extract_pdf_text cfg w p pn f = (Except.ok t, w2)) :
    handle_read_pdf cfg w p pn f = (readPdfMessage p (truncate_pdf_text t), w2) ∧
    truncate_pdf_text t = (if t.length > 15000 then t.take 15000 ++ truncNotice else t) ∧
    (∀ v, lookupCache w2.pdf_cache (cache_key p pn) = some v →
       v = t ∨ lookupCache w.pdf_cache (cache_key p pn) = some v) ∧
    (∀ q file2, w2.fs.find q ≠ w.fs.find q → w2.fs.find q = some file2 →
       file2.text = t) ∧
    (∀ term, w2.fs.pathExists p = true → is_path_allowed cfg.allowed p = true →
       load_cached_text cfg w2.fs p = Except.ok none →
       lookupCache w2.pdf_cache (cache_key p none) = some t →
       (∃ ln ∈ t.splitOn "\n", strIn term ln = true) →
       search_pdf_content cfg w2 p term true =
         (foundMessage p term (buildMatches (t.splitOn "\n") term), w2)) := by
  refine ⟨by simp [handle_read_pdf, hok], rfl, ?_, ?_, ?_⟩
  · intro v hv
    rcases extract_ok_world cfg w p pn f t w2 hok with hw | ⟨hc, _⟩ | ⟨hc, _⟩
    · subst hw
      exact Or.inr hv
    · rw [hc] at hv
      by_cases hlen : w.pdf_cache.length < 10
      · rw [if_pos hlen, lookupCache_cacheInsert_self] at hv
        exact Or.inl (Option.some.inj hv).symm
      · rw [if_neg hlen] at hv
        exact Or.inr hv
    · rw [hc] at hv
      exact Or.inr hv
  · intro q file2 hne hfq
    have hsave : ∀ hfs : w2.fs = save_cached_text cfg w.fs p t, file2.text = t := by
      intro hfs
      rw [hfs] at hne hfq
      rcases save_cached_text_find cfg w.fs p t q with hs | hs
      · exact absurd hs hne
      · rw [hs] at hfq
        rw [← Option.some.inj hfq]
        rfl
    rcases extract_ok_world cfg w p pn f t w2 hok with hw | ⟨_, hfs | hfs⟩ | ⟨_, hfs⟩
    · subst hw
      exact absurd rfl hne
    · rw [hfs] at hne
      exact absurd rfl hne
    · exact hsave hfs
    · exact hsave hfs
  · intro term hex hal hld hmem hline
    have hmh := extract_mem_hit cfg w2 p none t hex hal rfl hld hmem
    cases hbm : buildMatches (t.splitOn "\n") term with
    | nil => exact absurd hbm (buildMatches_mem_ne_nil (t.splitOn "\n") term hline)
    | cons a as =>
      rw [← hbm]
      simp [search_pdf_content, hmh, hbm]

/-- C6 witness: the first extraction over `wDir` returns the one-page
direct text and the handler wraps its (un-truncated, below the limit)
presentation copy while the cache receives the full text. -/
theorem C6_truncation_presentation_only_witness :
    handle_read_pdf cfgEx wDir pEx none false =
      (readPdfMessage pEx (truncate_pdf_text exDirectText), wDir1) :=
  (C6_truncation_presentation_only cfgEx wDir pEx none false exDirectText wDir1
      (by decide)).1

theorem foldl_min_le_init (l : List Nat) (a : Nat) : l.foldl Nat.min a ≤ a := by
  induction l generalizing a with
  | nil => exact Nat.le_refl a
  | cons x xs ih => exact Nat.le_trans (ih (Nat.min a x)) (Nat.min_le_left a x)

theorem foldl_min_le_mem (l : List Nat) (y : Nat) :
    ∀ a, y ∈ l → l.foldl Nat.min a ≤ y := by
  induction l with
  | nil => intro a h; cases h
  | cons x xs ih =>
    intro a h
    rcases List.mem_cons.mp h with h1 | h1
    · subst h1
      exact Nat.le_trans (foldl_min_le_init xs (Nat.min a y)) (Nat.min_le_right a y)
    · exact ih (Nat.min a x) h1

theorem listMin_le (l : List Nat) (y : Nat) (hy : y ∈ l) : listMin l ≤ y := by
  cases l with
  | nil => cases hy
  | cons x xs =>
    rcases List.mem_cons.mp hy with h1 | h1
    · subst h1
      exact foldl_min_le_init xs y
    · exact foldl_min_le_mem xs y x h1

theorem init_le_foldl_max (l : List Nat) (a : Nat) : a ≤ l.foldl Nat.max a := by
  induction l generalizing a with
  | nil => exact Nat.le_refl a
  | cons x xs ih => exact Nat.le_trans (Nat.le_max_left a x) (ih (Nat.max a x))

theorem mem_le_foldl_max (l : List Nat) (y : Nat) :
    ∀ a, y ∈ l → y ≤ l.foldl Nat.max a := by
  induction l with
  | nil => intro a h; cases h
  | cons x xs ih =>
    intro a h
    rcases List.mem_cons.mp h with h1 | h1
    · subst h1
      exact Nat.le_trans (Nat.le_max_right a y) (init_le_foldl_max xs (Nat.max a y))
    · exact ih (Nat.max a x) h1

theorem le_listMax (l : List Nat) (y : Nat) (hy : y ∈ l) : y ≤ listMax l := by
  cases l with
  | nil => cases hy
  | cons x xs =>
    rcases List.mem_cons.mp hy with h1 | h1
    · subst h1
      exact init_le_foldl_max xs y
    · exact mem_le_foldl_max xs y x h1

theorem foldl_max_le (l : List Nat) (n : Nat) :
    ∀ a, a ≤ n → (∀ y ∈ l, y ≤ n) → l.foldl Nat.max a ≤ n := by
  induction l with
  | nil => intro a ha _; exact ha
  | cons x xs ih =>
    intro a ha hl
    exact ih (Nat.max a x)
      (Nat.max_le.mpr ⟨ha, hl x (List.mem_cons_self x xs)⟩)
      (fun y hy => hl y (List.mem_cons_of_mem x hy))

theorem listMax_le (l : List Nat) (n : Nat) (hl : ∀ y ∈ l, y ≤ n) (hne : l ≠ []) :
    listMax l ≤ n := by
  cases l with
  | nil => exact absurd rfl hne
  | cons x xs =>
    exact foldl_max_le xs n x (hl x (List.mem_cons_self x xs))
      (fun y hy => hl y (List.mem_cons_of_mem x hy))

theorem filter_contains_range' :
    ∀ (n a : Nat) (l : List Nat), List.Pairwise (· < ·) l →
    (∀ y ∈ l, a ≤ y ∧ y < a + n) →
    (List.range' a n).filter (fun y => l.contains y) = l := by
  intro n
  induction n with
  | zero =>
    intro a l hp hb
    cases l with
    | nil => rfl
    | cons y ys =>
      have := hb y (List.mem_cons_self y ys)
      omega
  | succ n ih =>
    intro a l hp hb
    rw [List.range'_succ, List.filter_cons]
    by_cases hmem : a ∈ l
    · cases l with
      | nil => cases hmem
      | cons h tl =>
        have hha : h = a := by
          rcases List.mem_cons.mp hmem with h1 | h1
          · exact h1.symm
          · have hlt : h < a := (List.pairwise_cons.mp hp).1 a h1
            have hle : a ≤ h := (hb h (List.mem_cons_self h tl)).1
            omega
        subst hha
        have hc : (h :: tl).contains h = true := by
          unfold List.contains
          simp
        rw [hc]
        simp only [if_true]
        have hcongr : ∀ y ∈ List.range' (h + 1) n, (h :: tl).contains y = tl.contains y := by
          intro y hy
          obtain ⟨i, hi, hyv⟩ := List.mem_range'.mp hy
          have hyne : y ≠ h := by omega
          unfold List.contains
          simp [hyne]
        rw [List.filter_congr hcongr]
        have htlp : List.Pairwise (fun a b => a < b) tl := (List.pairwise_cons.mp hp).2
        have htlb : ∀ y ∈ tl, h + 1 ≤ y ∧ y < (h + 1) + n := by
          intro y hy
          have h1 : h < y := (List.pairwise_cons.mp hp).1 y hy
          have h2 := (hb y (List.mem_cons_of_mem h hy)).2
          omega
        rw [ih (h + 1) tl htlp htlb]
    · have hc : l.contains a = false := by
        unfold List.contains
        simp [hmem]
      rw [hc]
      simp only [Bool.false_eq_true, if_false]
      have hlb : ∀ y ∈ l, a + 1 ≤ y ∧ y < (a + 1) + n := by
        intro y hy
        have h1 := (hb y hy).1
        have h2 := (hb y hy).2
        have h3 : y ≠ a := fun hh => hmem (hh ▸ hy)
        omega
      exact ih (a + 1) l hp hlb


theorem filterReq_total (images : List Nat) (pns : List Nat) :
    ∀ (pairs : List (Nat × Nat)),
    (∀ pr ∈ pairs, images.get? pr.1 = some pr.2) →
    filterReq images pns pairs =
      Except.ok ((pairs.map Prod.snd).filter (fun y => pns.contains y)) := by
  intro pairs
  induction pairs with
  | nil => intro _; rfl
  | cons pr rest ih =>
    intro h
    obtain ⟨i, v⟩ := pr
    have hget : images.get? i = some v := h (i, v) (List.mem_cons_self _ _)
    have hrest := ih (fun pr hpr => h pr (List.mem_cons_of_mem _ hpr))
    simp only [filterReq, List.map_cons, List.filter_cons]
    cases hc : pns.contains v with
    | true =>
      rw [hget, hrest]
      simp
    | false =>
      rw [hrest]
      simp

theorem ocrLoop_all_ok (doc : PdfDoc) (pns : List Nat) (g : Nat → String) :
    ∀ (pairs : List (Nat × Nat)) (ap : Option Nat),
    (∀ pr ∈ pairs, pr.1 < pns.length ∧ pns.getD pr.1 0 = pr.2 ∧
        doc.ocrOf pr.2 = Except.ok (g pr.2)) →
    ocrLoop doc (some pns) pairs ap =
      Except.ok (pairs.map (fun pr => pageBlockOk pr.2 (g pr.2))) := by
  intro pairs
  induction pairs with
  | nil => intro ap _; rfl
  | cons pr rest ih =>
    intro ap h
    obtain ⟨i, img⟩ := pr
    obtain ⟨hlt, hgetd, hocr⟩ := h (i, img) (List.mem_cons_self _ _)
    simp only [ocrLoop]
    rw [hocr, if_pos hlt, hgetd,
      ih (some img) (fun pr hpr => h pr (List.mem_cons_of_mem _ hpr))]
    rfl


/-- C2 (amended): for a strictly ascending in-range page list whose
pages all OCR successfully, every produced block is labeled with that
page's true 1-indexed number and carries that page's own OCR text, in
request order.  (For non-ascending lists the labels misalign — see the
counterexample.) -/
theorem C2_sorted_page_alignment (doc : PdfDoc) (pns : List Nat) (g : Nat → String)
    (hne : pns ≠ [])
    (hsort : List.Pairwise (· < ·) pns)
    (hrange : ∀ p ∈ pns, 1 ≤ p ∧ p ≤ doc.pages.length)
    (hconv : doc.convertError = none)
    (hocr : ∀ p ∈ pns, doc.ocrOf p = Except.ok (g p)) :
    extract_text_with_ocr doc (some pns) =
      Except.ok (String.intercalate "\n" (pns.map (fun p => pageBlockOk p (g p)))) := by
  have hisEmpty : pns.isEmpty = false := by
    cases pns with
    | nil => exact absurd rfl hne
    | cons x xs => rfl
  have hmaxle : listMax pns ≤ doc.pages.length :=
    listMax_le pns _ (fun y hy => (hrange y hy).2) hne
  have hconv2 : convert_from_path doc (listMin pns) (listMax pns) =
      Except.ok (List.range' (listMin pns) (listMax pns + 1 - listMin pns)) := by
    unfold convert_from_path
    rw [hconv, Nat.min_eq_left hmaxle]
  have hget : ∀ pr ∈ (List.range' (listMin pns) (listMax pns + 1 - listMin pns)).enum,
      (List.range' (listMin pns) (listMax pns + 1 - listMin pns)).get? pr.1 = some pr.2 := by
    intro pr hpr
    rw [List.get?_eq_getElem?]
    exact List.mem_enum_iff_getElem?.mp hpr
  have hfil := filterReq_total (List.range' (listMin pns) (listMax pns + 1 - listMin pns)) pns
    (List.enum (List.range' (listMin pns) (listMax pns + 1 - listMin pns))) hget
  have hsnd : (List.enum (List.range' (listMin pns) (listMax pns + 1 - listMin pns))).map
      Prod.snd = List.range' (listMin pns) (listMax pns + 1 - listMin pns) :=
    List.enumFrom_map_snd 0 _
  have hbounds : ∀ y ∈ pns,
      listMin pns ≤ y ∧ y < listMin pns + (listMax pns + 1 - listMin pns) := by
    intro y hy
    have h1 := listMin_le pns y hy
    have h2 := le_listMax pns y hy
    omega
  have hfg := filter_contains_range' (listMax pns + 1 - listMin pns) (listMin pns)
    pns hsort hbounds
  rw [hsnd, hfg] at hfil
  have hloopH : ∀ pr ∈ pns.enum, pr.1 < pns.length ∧ pns.getD pr.1 0 = pr.2 ∧
      doc.ocrOf pr.2 = Except.ok (g pr.2) := by
    intro pr hpr
    have hg : pns[pr.1]? = some pr.2 := List.mem_enum_iff_getElem?.mp hpr
    have hlt : pr.1 < pns.length := by
      rcases List.getElem?_eq_some.mp hg with ⟨hh, _⟩
      exact hh
    have hmem2 : pr.2 ∈ pns := by
      rcases List.getElem?_eq_some.mp hg with ⟨hh, hv⟩
      exact hv ▸ List.getElem_mem hh
    refine ⟨hlt, ?_, hocr pr.2 hmem2⟩
    rw [List.getD_eq_getElem?_getD, hg]
    rfl
  have hloop := ocrLoop_all_ok doc pns g pns.enum none hloopH
  have hmap : pns.enum.map (fun pr => pageBlockOk pr.2 (g pr.2)) =
      pns.map (fun p => pageBlockOk p (g p)) := by
    have h1 : pns.enum.map (fun pr => pageBlockOk pr.2 (g pr.2)) =
        (pns.enum.map Prod.snd).map (fun p => pageBlockOk p (g p)) := by
      rw [List.map_map]
      rfl
    exact h1.trans
      (congrArg (List.map (fun p => pageBlockOk p (g p))) (List.enumFrom_map_snd 0 pns))
  rw [hmap] at hloop
  simp only [extract_text_with_ocr, hisEmpty, Bool.false_eq_true, if_false,
    hconv2, hfil, hloop]

/-- C2 witness: the ascending request `[1, 3]` on the three-page
document yields blocks correctly labeled with pages 1 and 3 carrying
those pages' own OCR text. -/
theorem C2_sorted_page_alignment_witness :
    extract_text_with_ocr exDocThree (some [1, 3]) =
      Except.ok (String.intercalate "\n" ([1, 3].map (fun p => pageBlockOk p (fThree p)))) :=
  C2_sorted_page_alignment exDocThree [1, 3] fThree (by decide) (by decide) (by decide)
    (by decide) (by decide)

end PdfServer

